import Mathlib

/-!
Verification of the lease-to-system reconciliation engine of dhcpcd
(source file configure.c).  The engine is embedded shallowly: external
kernel-mutation primitives (add_address, del_address, add_route,
del_route, set_mtu, sethostname and the lifecycle hook dispatcher) are
recorded in an explicit effect trace, and the results of the fallible
external calls are supplied by an environment record.  Addresses are
32-bit values modelled as natural numbers.
-/

/-- A route entry: destination, netmask, gateway.  The source type
route_t carries exactly these three address fields (plus the intrusive
list pointer, which the Lean embedding replaces by List). -/
structure route_t where
  destination : Nat
  netmask : Nat
  gateway : Nat
deriving DecidableEq, Repr

/-- The FQDN option carried by a lease: flags, two response codes and
the encoded name, as written by write_info. -/
structure fqdn_t where
  flags : Nat
  r1 : Nat
  r2 : Nat
  name : String
deriving DecidableEq, Repr

/-- The lease snapshot (source type dhcp_t), restricted to the fields
read by configure.c. -/
structure dhcp_t where
  address : Nat
  netmask : Nat
  broadcast : Nat
  mtu : Nat
  routes : List route_t
  dnsservers : List Nat
  dnsdomain : Option String
  dnssearch : Option String
  ntpservers : List Nat
  nisdomain : Option String
  nisservers : List Nat
  hostname : Option String
  fqdn : Option fqdn_t
  rootpath : Option String
  serveraddress : Nat
  servername : String
  leasetime : Nat
  renewaltime : Nat
  rebindtime : Nat
deriving DecidableEq, Repr

/-- The mutable per-interface state (source type interface_t),
restricted to the fields read or written by configure.c.  The field
hwaddrStr stands for the string hwaddr_ntoa (iface->hwaddr,
iface->hwlen), whose renderer lives outside this source file. -/
structure interface_t where
  name : String
  hwaddrStr : String
  infofile : String
  mtu : Nat
  previous_mtu : Nat
  previous_address : Nat
  previous_netmask : Nat
  previous_routes : List route_t
deriving DecidableEq, Repr

/-- The read-only policy record (source type options_t), restricted to
the fields read by configure.c. -/
structure options_t where
  dogateway : Bool
  domtu : Bool
  dodns : Bool
  dontp : Bool
  donis : Bool
  dohostname : Bool
  metric : Nat
  script : String
  classid : String
  clientid : String
deriving DecidableEq, Repr

/-- Outcome of the primary add_address call: success, failure with
errno EEXIST, or failure with any other errno. -/
inductive AddAddrRes where
  | ok : AddAddrRes
  | eexist : AddAddrRes
  | err : AddAddrRes
deriving DecidableEq, Repr

/-- Results of the fallible external calls made on one configure
invocation.  Calls whose result the source discards (del_route,
del_address, the set_mtu on the lease-loss path, file writes, process
spawns) need no entry. -/
structure ExtEnv where
  addAddressResult : AddAddrRes
  setMtuOk : Bool
  addRouteOk : route_t → Bool
  resolvedName : Option String
  currentHostname : String

/-- One recorded external side effect of configure. -/
inductive Eff where
  | delRoute (dest mask gw metric : Nat) : Eff
  | addRoute (dest mask gw metric : Nat) : Eff
  | delAddress (addr mask : Nat) : Eff
  | addAddress (addr mask bcast : Nat) : Eff
  | setMtu (mtu : Nat) : Eff
  | setHostname (h : String) : Eff
  | script (arg : String) : Eff
deriving DecidableEq, Repr

/-- Return value, final interface state and effect trace of one
configure invocation. -/
structure ConfOut where
  ret : Int
  iface : interface_t
  trace : List Eff
deriving DecidableEq, Repr

/-- Renders a 32-bit address value as a dotted quad, standing for
inet_ntoa. -/
def inet_ntoa (n : Nat) : String :=
  toString (n / 16777216 % 256) ++ "." ++ toString (n / 65536 % 256) ++ "."
    ++ toString (n / 256 % 256) ++ "." ++ toString (n % 256)

/-- Field-wise route comparison used at configure.c lines 515-517 and
621-623: equality of destination, netmask and gateway. -/
def routeMatch (a b : route_t) : Bool :=
  a.destination == b.destination && a.netmask == b.netmask
    && a.gateway == b.gateway

/-- The have flag of the stale-route loop (configure.c lines 512-521):
the lease address is nonzero and the new route list holds a 3-tuple
equal route. -/
def haveNewRoute (d : dhcp_t) (r : route_t) : Bool :=
  d.address != 0 && d.routes.any (fun nr => routeMatch nr r)

/-- Stale-route removal (configure.c lines 507-526): every previous
route that is a non-default route or subject to gateway management, and
that has no 3-tuple equal counterpart in the new lease, is deleted. -/
def removeOldRoutes (o : options_t) (i : interface_t) (d : dhcp_t) : List Eff :=
  i.previous_routes.filterMap (fun r =>
    if r.destination ≠ 0 ∨ o.dogateway = true then
      if haveNewRoute d r then none
      else some (Eff.delRoute r.destination r.netmask r.gateway o.metric)
    else none)

/-- MTU management on the lease-present path (configure.c lines
563-574): target is the lease MTU when nonzero, else the native MTU;
set_mtu runs only when the target differs from the previously applied
MTU, and the target is remembered only when set_mtu succeeds. -/
def mtuPhase (o : options_t) (i : interface_t) (d : dhcp_t) (env : ExtEnv) :
    List Eff × interface_t :=
  if o.domtu then
    let mtu := if d.mtu ≠ 0 then d.mtu else i.mtu
    if mtu ≠ i.previous_mtu then
      ([Eff.setMtu mtu],
       if env.setMtuOk then { i with previous_mtu := mtu } else i)
    else ([], i)
  else ([], i)

/-- Linux subnet-route re-metric quirk (configure.c lines 585-598):
when the address changed, a positive metric is requested and the
netmask is not the host mask, the subnet route is re-added with the
metric and the metric-less duplicate deleted. -/
def quirkPhase (o : options_t) (i : interface_t) (d : dhcp_t) : List Eff :=
  if i.previous_address ≠ d.address ∧ o.metric > 0 ∧ d.netmask ≠ 4294967295 then
    [Eff.addRoute (d.address &&& d.netmask) d.netmask 0 o.metric,
     Eff.delRoute (d.address &&& d.netmask) d.netmask 0 0]
  else []

/-- Route application and remembering loop (configure.c lines 606-645):
default routes are skipped when gateway management is off; every other
route is add_route-d; a route is remembered when the add succeeded or
when it 3-tuple matches a route of the old previous_routes. -/
def addRoutesLoop (o : options_t) (P : List route_t) (env : ExtEnv) :
    List route_t → List Eff × List route_t
  | [] => ([], [])
  | r :: rest =>
    let acc := addRoutesLoop o P env rest
    if r.destination == 0 && r.netmask == 0 && !o.dogateway then acc
    else
      (Eff.addRoute r.destination r.netmask r.gateway o.metric :: acc.1,
       if env.addRouteOk r || P.any (fun pr => routeMatch pr r) then r :: acc.2
       else acc.2)

/-- Hostname determination (configure.c lines 669-699): when hostname
management is on and the lease has no hostname, the candidate is the
resolved reverse-DNS name cut at the first character with code at most
32; the hostname is applied when management is on or the current name
is empty, the sentinel or the loopback name, an explicit lease hostname
takes precedence, and only a non-empty result is applied. -/
def hostnamePhase (o : options_t) (d : dhcp_t) (env : ExtEnv) : List Eff :=
  let rdns :=
    if o.dohostname = true ∧ d.hostname = none then
      match env.resolvedName with
      | some n => String.mk (n.data.takeWhile (fun c => 32 < c.toNat))
      | none => ""
    else ""
  if o.dohostname = true ∨ env.currentHostname = ""
      ∨ env.currentHostname = "(none)" ∨ env.currentHostname = "localhost" then
    let nh := match d.hostname with
      | some h => h
      | none => rdns
    if nh ≠ "" then [Eff.setHostname nh] else []
  else []

/-- Lease-loss path of configure (configure.c lines 529-558): clear
previous_routes, restore the native MTU when it is nonzero and another
MTU was applied, and when a previous address existed delete it, clear
the previous address and netmask and fire the down hook. -/
def configureZero (o : options_t) (i : interface_t) (d : dhcp_t) : ConfOut :=
  let t1 := removeOldRoutes o i d
  let i1 := { i with previous_routes := [] }
  let tm := if i.mtu ≠ 0 ∧ i.previous_mtu ≠ i.mtu then [Eff.setMtu i.mtu] else []
  let i2 := if i.mtu ≠ 0 ∧ i.previous_mtu ≠ i.mtu then { i1 with previous_mtu := i.mtu } else i1
  if i.previous_address ≠ 0 then
    { ret := 0,
      iface := { i2 with previous_address := 0, previous_netmask := 0 },
      trace := t1 ++ tm ++ [Eff.delAddress i.previous_address i.previous_netmask]
        ++ [Eff.script "down"] }
  else
    { ret := 0, iface := i2, trace := t1 ++ tm }

/-- Lease-present path of configure (configure.c lines 560-717). -/
def configureNonzero (o : options_t) (i : interface_t) (d : dhcp_t) (env : ExtEnv) : ConfOut :=
  let t1 := removeOldRoutes o i d
  let tm := (mtuPhase o i d env).1
  let i1 := (mtuPhase o i d env).2
  let tAdd := [Eff.addAddress d.address d.netmask d.broadcast]
  if env.addAddressResult = AddAddrRes.err then
    { ret := -1, iface := i1, trace := t1 ++ tm ++ tAdd }
  else
    let tDelA :=
      if i.previous_address ≠ d.address ∧ i.previous_address ≠ 0 then
        [Eff.delAddress i.previous_address i.previous_netmask]
      else []
    let tQ := quirkPhase o i d
    let tR := (addRoutesLoop o i.previous_routes env d.routes).1
    let i2 :=
      if d.routes = [] then i1
      else { i1 with previous_routes := (addRoutesLoop o i.previous_routes env d.routes).2 }
    let tH := hostnamePhase o d env
    if i.previous_address ≠ d.address ∨ i.previous_netmask ≠ d.netmask then
      { ret := 0,
        iface := { i2 with previous_address := d.address, previous_netmask := d.netmask },
        trace := t1 ++ tm ++ tAdd ++ tDelA ++ tQ ++ tR ++ tH ++ [Eff.script "new"] }
    else
      { ret := 0, iface := i2,
        trace := t1 ++ tm ++ tAdd ++ tDelA ++ tQ ++ tR ++ tH ++ [Eff.script "up"] }

/-- The configure entry point (configure.c lines 489-718) for non-null
arguments. -/
def configure (o : options_t) (i : interface_t) (d : dhcp_t) (env : ExtEnv) : ConfOut :=
  if d.address = 0 then configureZero o i d
  else configureNonzero o i d env

/-- The configure entry point with the C null-pointer checks
(configure.c lines 501-502): a missing argument yields -1 with no
effects. -/
def configureC (o : Option options_t) (i : Option interface_t) (d : Option dhcp_t)
    (env : ExtEnv) : ConfOut :=
  match o, i, d with
  | some o, some i, some d => configure o i d env
  | _, _, _ =>
    { ret := -1,
      iface := { name := "", hwaddrStr := "", infofile := "", mtu := 0,
                 previous_mtu := 0, previous_address := 0, previous_netmask := 0,
                 previous_routes := [] },
      trace := [] }

/-- Splits a character list at its first space: the part before the
space, and the part after it when a space exists (the strsep step of
_make_ntp). -/
def breakAtSpace : List Char → List Char × Option (List Char)
  | [] => ([], none)
  | c :: rest =>
    if c = Char.ofNat 32 then ([], some rest)
    else
      let p := breakAtSpace rest
      (c :: p.1, p.2)

/-- Extracts the address token of a server line the way _make_ntp
parses a line read by fgets (configure.c lines 211-217): the first
strsep cuts at the first space, so a line without a space keeps its
trailing newline and never equals the word server; the second strsep
cuts the remainder at the next space or newline.  Lines are modelled
without their trailing newline. -/
def lineServerAddr (l : String) : Option String :=
  match breakAtSpace l.data with
  | (_, none) => none
  | (t, some rest) =>
    if t = String.data "server" then some (String.mk (breakAtSpace rest).1)
    else none

/-- The counting scan of _make_ntp (configure.c lines 189-228): tomatch
starts at the number of lease NTP servers and is decremented once per
server line whose address token equals the rendering of any lease NTP
server; the scan stops when the counter reaches zero. -/
def ntpScan (servers : List Nat) : List String → Nat → Nat
  | [], tomatch => tomatch
  | l :: rest, tomatch =>
    match lineServerAddr l with
    | none => ntpScan servers rest tomatch
    | some tok =>
      let t := if servers.any (fun a => inet_ntoa a = tok) then tomatch - 1 else tomatch
      if t = 0 then 0 else ntpScan servers rest t

/-- The lines written on a rewrite by _make_ntp (configure.c lines
246-268): header, the restrict preamble for the trusted-local (ntp)
variant, one server line per lease NTP address (preceded by a per-host
restrict line in the trusted-local variant) and the trailing driftfile
and logfile lines in the trusted-local variant. -/
def ntpFileLines (isNtpFile : Bool) (ifname : String) (servers : List Nat) : List String :=
  ["# Generated by dhcpcd for interface " ++ ifname]
  ++ (if isNtpFile then
        ["restrict default noquery notrust nomodify", "restrict 127.0.0.1"]
      else [])
  ++ servers.flatMap (fun a =>
      (if isNtpFile then ["restrict " ++ inet_ntoa a ++ " nomodify notrap noquery"] else [])
      ++ ["server " ++ inet_ntoa a])
  ++ (if isNtpFile then
        ["driftfile /var/db/ntpd.drift", "logfile /var/log/ntpd.log"]
      else [])

/-- Result of _make_ntp: 0 means the file already matched and no
restart is needed, 1 means the file was rewritten with the given
content and a restart is needed. -/
inductive NtpResult where
  | skip : NtpResult
  | rewrite (content : List String) : NtpResult
deriving DecidableEq, Repr

/-- The _make_ntp change-detection and rewrite routine (configure.c
lines 183-272).  The existing file contents are supplied as an optional
list of lines, none standing for ENOENT; write errors are not
modelled. -/
def _make_ntp (isNtpFile : Bool) (ifname : String) (d : dhcp_t)
    (contents : Option (List String)) : NtpResult :=
  match contents with
  | some lines =>
    if ntpScan d.ntpservers lines d.ntpservers.length = 0 then NtpResult.skip
    else NtpResult.rewrite (ntpFileLines isNtpFile ifname d.ntpservers)
  | none => NtpResult.rewrite (ntpFileLines isNtpFile ifname d.ntpservers)

/-- True when the file holds a server line for the given address. -/
def hasServerLineFor (lines : List String) (a : Nat) : Bool :=
  lines.any (fun l => lineServerAddr l == some (inet_ntoa a))

/-- Character-list version of cleanmetas (configure.c lines 350-377):
every single-quote character (code 39) is replaced by the four
characters quote, backslash, quote, quote; every other character is
copied. -/
def cleanChars : List Char → List Char
  | [] => []
  | c :: rest =>
    if c = Char.ofNat 39 then
      Char.ofNat 39 :: Char.ofNat 92 :: Char.ofNat 39 :: Char.ofNat 39 :: cleanChars rest
    else c :: cleanChars rest

/-- The cleanmetas escaping routine of configure.c lines 350-377 lifted
to String. -/
def cleanmetas (s : String) : String :=
  String.mk (cleanChars s.data)

/-- Modelled from the spec: the shell-style single-quote reader that
consumes a quoted info-file value (the reader itself is not part of
this repository).  Outside quotes a backslash escapes the next
character and a quote toggles into quoted mode; inside quotes every
character except the closing quote is literal. -/
def shRead : List Char → Bool → List Char
  | [], _ => []
  | c :: rest, inq =>
    if c = Char.ofNat 39 then shRead rest (!inq)
    else if c = Char.ofNat 92 ∧ inq = false then
      match rest with
      | [] => [c]
      | c2 :: rest2 => c2 :: shRead rest2 false
    else c :: shRead rest inq

/-- Space-separated dest,mask,gateway triples as written for the ROUTES
value (configure.c lines 399-411). -/
def routesString (rs : List route_t) : String :=
  String.intercalate " " (rs.map (fun r =>
    inet_ntoa r.destination ++ "," ++ inet_ntoa r.netmask ++ ","
      ++ inet_ntoa r.gateway))

/-- Space-separated address list as written for the DNSSERVERS,
NTPSERVERS and NISSERVERS values. -/
def addrListString (as : List Nat) : String :=
  String.intercalate " " (as.map inet_ntoa)

/-- The info-file writer (configure.c lines 379-486) as the ordered
list of KEY, value pairs it prints, one pair per fprintf line. -/
def write_info (iface : interface_t) (d : dhcp_t) (o : options_t) :
    List (String × String) :=
  [("IPADDR", inet_ntoa d.address), ("NETMASK", inet_ntoa d.netmask),
   ("BROADCAST", inet_ntoa d.broadcast)]
  ++ (if d.mtu > 0 then [("MTU", toString d.mtu)] else [])
  ++ (if d.routes ≠ [] then [("ROUTES", routesString d.routes)] else [])
  ++ (match d.hostname with
      | some h => [("HOSTNAME", cleanmetas h)]
      | none => [])
  ++ (match d.dnsdomain with
      | some s => [("DNSDOMAIN", cleanmetas s)]
      | none => [])
  ++ (match d.dnssearch with
      | some s => [("DNSSEARCH", cleanmetas s)]
      | none => [])
  ++ (if d.dnsservers ≠ [] then [("DNSSERVERS", addrListString d.dnsservers)] else [])
  ++ (match d.fqdn with
      | some f => [("FQDNFLAGS", toString f.flags), ("FQDNRCODE1", toString f.r1),
                   ("FQDNRCODE2", toString f.r2), ("FQDNHOSTNAME", f.name)]
      | none => [])
  ++ (if d.ntpservers ≠ [] then [("NTPSERVERS", addrListString d.ntpservers)] else [])
  ++ (match d.nisdomain with
      | some s => [("NISDOMAIN", cleanmetas s)]
      | none => [])
  ++ (if d.nisservers ≠ [] then [("NISSERVERS", addrListString d.nisservers)] else [])
  ++ (match d.rootpath with
      | some s => [("ROOTPATH", cleanmetas s)]
      | none => [])
  ++ [("DHCPSID", inet_ntoa d.serveraddress), ("DHCPSNAME", cleanmetas d.servername),
      ("LEASETIME", toString d.leasetime), ("RENEWALTIME", toString d.renewaltime),
      ("REBINDTIME", toString d.rebindtime), ("INTERFACE", iface.name),
      ("CLASSID", cleanmetas o.classid),
      ("CLIENTID", if o.clientid ≠ "" then cleanmetas o.clientid else iface.hwaddrStr),
      ("DHCPCHADDR", iface.hwaddrStr)]

/-- The lifecycle token of an effect, when the effect is a hook
invocation. -/
def scriptToken : Eff → Option String
  | Eff.script s => some s
  | _ => none

/-- The hook tokens of a trace, in order. -/
def scriptsOf (t : List Eff) : List String :=
  t.filterMap scriptToken

/-- True for the kernel-add effects (add_address and add_route). -/
def isAddCall : Eff → Bool
  | Eff.addAddress _ _ _ => true
  | Eff.addRoute _ _ _ _ => true
  | _ => false

/-- True for an add_address effect. -/
def isAddrAdd : Eff → Bool
  | Eff.addAddress _ _ _ => true
  | _ => false

/-- True for a del_route effect whose 3-tuple equals the given
route, with any metric. -/
def isDelRouteOf (r : route_t) : Eff → Bool
  | Eff.delRoute a b c _ => a == r.destination && b == r.netmask && c == r.gateway
  | _ => false

/-- True for an add_route effect whose 3-tuple equals the given
route, with any metric. -/
def isAddRouteOf (r : route_t) : Eff → Bool
  | Eff.addRoute a b c _ => a == r.destination && b == r.netmask && c == r.gateway
  | _ => false

/-- Baseline lease with all fields empty, used to build concrete
inputs. -/
def dhcp0 : dhcp_t :=
  { address := 0, netmask := 0, broadcast := 0, mtu := 0, routes := [],
    dnsservers := [], dnsdomain := none, dnssearch := none, ntpservers := [],
    nisdomain := none, nisservers := [], hostname := none, fqdn := none,
    rootpath := none, serveraddress := 0, servername := "", leasetime := 0,
    renewaltime := 0, rebindtime := 0 }

/-- Baseline interface state with all fields empty, used to build
concrete inputs. -/
def iface0 : interface_t :=
  { name := "eth0", hwaddrStr := "00:11:22:33:44:55", infofile := "info",
    mtu := 0, previous_mtu := 0, previous_address := 0, previous_netmask := 0,
    previous_routes := [] }

/-- Baseline options with every policy off, used to build concrete
inputs. -/
def opts0 : options_t :=
  { dogateway := false, domtu := false, dodns := false, dontp := false,
    donis := false, dohostname := false, metric := 0, script := "sc",
    classid := "", clientid := "" }

/-- Baseline environment where every external call succeeds, used to
build concrete inputs. -/
def env0 : ExtEnv :=
  { addAddressResult := AddAddrRes.ok, setMtuOk := true,
    addRouteOk := fun _ => true, resolvedName := none, currentHostname := "host" }

/-- The single-quote character as a one-character string. -/
def squote : String := String.mk [Char.ofNat 39]

/-- Runs the spec-modelled shell reader over a whole string, starting
outside quotes. -/
def shReadStr (t : String) : String := String.mk (shRead t.data false)

/-- The candidate hostname computed by configure.c lines 669-692: the
lease hostname when present, else the reverse-DNS name cut at the first
character with code at most 32 when hostname management is on, else the
empty string. -/
def hostnameCandidate (o : options_t) (d : dhcp_t) (env : ExtEnv) : String :=
  match d.hostname with
  | some h => h
  | none =>
    if o.dohostname = true then
      match env.resolvedName with
      | some n => String.mk (n.data.takeWhile (fun c => 32 < c.toNat))
      | none => ""
    else ""

/-- The info-file pairs written before the CLIENTID line (configure.c
lines 393-478). -/
def infoFront (iface : interface_t) (d : dhcp_t) (o : options_t) :
    List (String × String) :=
  [("IPADDR", inet_ntoa d.address), ("NETMASK", inet_ntoa d.netmask),
   ("BROADCAST", inet_ntoa d.broadcast)]
  ++ (if d.mtu > 0 then [("MTU", toString d.mtu)] else [])
  ++ (if d.routes ≠ [] then [("ROUTES", routesString d.routes)] else [])
  ++ (match d.hostname with
      | some h => [("HOSTNAME", cleanmetas h)]
      | none => [])
  ++ (match d.dnsdomain with
      | some s => [("DNSDOMAIN", cleanmetas s)]
      | none => [])
  ++ (match d.dnssearch with
      | some s => [("DNSSEARCH", cleanmetas s)]
      | none => [])
  ++ (if d.dnsservers ≠ [] then [("DNSSERVERS", addrListString d.dnsservers)] else [])
  ++ (match d.fqdn with
      | some f => [("FQDNFLAGS", toString f.flags), ("FQDNRCODE1", toString f.r1),
                   ("FQDNRCODE2", toString f.r2), ("FQDNHOSTNAME", f.name)]
      | none => [])
  ++ (if d.ntpservers ≠ [] then [("NTPSERVERS", addrListString d.ntpservers)] else [])
  ++ (match d.nisdomain with
      | some s => [("NISDOMAIN", cleanmetas s)]
      | none => [])
  ++ (if d.nisservers ≠ [] then [("NISSERVERS", addrListString d.nisservers)] else [])
  ++ (match d.rootpath with
      | some s => [("ROOTPATH", cleanmetas s)]
      | none => [])
  ++ [("DHCPSID", inet_ntoa d.serveraddress), ("DHCPSNAME", cleanmetas d.servername),
      ("LEASETIME", toString d.leasetime), ("RENEWALTIME", toString d.renewaltime),
      ("REBINDTIME", toString d.rebindtime), ("INTERFACE", iface.name),
      ("CLASSID", cleanmetas o.classid)]

/-- A sample non-default route used by concrete instances. -/
def route567 : route_t := { destination := 5, netmask := 6, gateway := 7 }

/-- Interface state owning route567 with a previous address equal to
the sample lease address. -/
def ifaceA : interface_t :=
  { iface0 with
      previous_address := 1
      previous_netmask := 6
      previous_routes := [route567] }

/-- Lease carrying route567 with address 1. -/
def dhcpA : dhcp_t :=
  { dhcp0 with
      address := 1
      netmask := 6
      routes := [route567] }

/-- Interface state with no previous address but a nonzero previous
netmask. -/
def ifaceB : interface_t := { iface0 with previous_netmask := 9 }

/-- Interface state with a previous address, previous routes and an
MTU override in place. -/
def ifaceC : interface_t :=
  { iface0 with
      mtu := 1500
      previous_mtu := 1400
      previous_address := 5
      previous_netmask := 6
      previous_routes := [route567] }

/-- Interface state with a previous address and route567 remembered. -/
def ifaceD : interface_t :=
  { iface0 with
      previous_address := 1
      previous_routes := [route567] }

/-- Lease with address 1 and no routes. -/
def dhcpD : dhcp_t := { dhcp0 with address := 1 }

/-- Lease with address 1 carrying route567. -/
def dhcpE : dhcp_t :=
  { dhcp0 with
      address := 1
      routes := [route567] }

/-- Lease with address 1 and MTU 1400. -/
def dhcpF : dhcp_t :=
  { dhcp0 with
      address := 1
      mtu := 1400 }

/-- Environment whose add_address call fails hard. -/
def envErr : ExtEnv := { env0 with addAddressResult := AddAddrRes.err }

/-- Environment whose set_mtu call fails. -/
def envNoMtu : ExtEnv := { env0 with setMtuOk := false }

/-- Options with MTU management on. -/
def optsMtu : options_t := { opts0 with domtu := true }

/-- Options with hostname management on. -/
def optsHost : options_t := { opts0 with dohostname := true }

/-- Environment resolving the lease address to a two-word name. -/
def envHost : ExtEnv :=
  { env0 with
      resolvedName := some "foo bar"
      currentHostname := "x" }

/-- Interface state with an MTU override applied but a zero native
MTU. -/
def ifaceE : interface_t := { iface0 with previous_mtu := 1500 }

/-- Every effect of the stale-route phase is the deletion of a previous
route that is eligible and has no 3-tuple equal counterpart in the new
lease. -/
theorem mem_removeOldRoutes {o : options_t} {i : interface_t} {d : dhcp_t} {e : Eff}
    (he : e ∈ removeOldRoutes o i d) :
    ∃ r, r ∈ i.previous_routes ∧ (r.destination ≠ 0 ∨ o.dogateway = true) ∧
      haveNewRoute d r = false ∧
      e = Eff.delRoute r.destination r.netmask r.gateway o.metric := by
  simp only [removeOldRoutes, List.mem_filterMap] at he
  obtain ⟨r, hr, hf⟩ := he
  refine ⟨r, hr, ?_⟩
  split at hf
  · split at hf
    · exact absurd hf (by simp)
    · rename_i h1 h2
      injection hf with h
      exact ⟨h1, by simpa using h2, h.symm⟩
  · exact absurd hf (by simp)

/-- Every effect of the route-application loop is an add_route with the
configured metric on a lease route. -/
theorem addRoutesLoop_fst_shape {o : options_t} {P : List route_t} {env : ExtEnv}
    {rs : List route_t} {e : Eff} (he : e ∈ (addRoutesLoop o P env rs).1) :
    ∃ r, r ∈ rs ∧ e = Eff.addRoute r.destination r.netmask r.gateway o.metric := by
  induction rs with
  | nil => simp [addRoutesLoop] at he
  | cons r rest ih =>
    simp only [addRoutesLoop] at he
    by_cases hc : (r.destination == 0 && r.netmask == 0 && !o.dogateway) = true
    · rw [if_pos hc] at he
      obtain ⟨x, hx, hxe⟩ := ih he
      exact ⟨x, List.mem_cons_of_mem _ hx, hxe⟩
    · rw [if_neg hc] at he
      rcases List.mem_cons.mp he with h | h
      · exact ⟨r, List.mem_cons_self _ _, h⟩
      · obtain ⟨x, hx, hxe⟩ := ih h
        exact ⟨x, List.mem_cons_of_mem _ hx, hxe⟩

/-- The remembered route list equals the lease routes filtered to those
that are not gateway-skipped and were either added successfully or
3-tuple match an old previous route. -/
theorem addRoutesLoop_snd_eq (o : options_t) (P : List route_t) (env : ExtEnv)
    (rs : List route_t) :
    (addRoutesLoop o P env rs).2 =
      rs.filter (fun r => !(r.destination == 0 && r.netmask == 0 && !o.dogateway)
        && (env.addRouteOk r || P.any (fun pr => routeMatch pr r))) := by
  induction rs with
  | nil => simp [addRoutesLoop]
  | cons r rest ih =>
    simp only [addRoutesLoop, List.filter_cons]
    by_cases hc : (r.destination == 0 && r.netmask == 0 && !o.dogateway) = true
    · rw [if_pos hc]
      simp [hc, ih]
    · rw [if_neg hc]
      simp only [Bool.not_eq_true] at hc
      simp only [hc, Bool.not_false, Bool.true_and]
      split <;> simp [ih]

/-- The subnet-route quirk emits only the metric add and the metric-0
delete of the subnet route, whose gateway is zero. -/
theorem quirkPhase_shape {o : options_t} {i : interface_t} {d : dhcp_t} {e : Eff}
    (he : e ∈ quirkPhase o i d) :
    e = Eff.addRoute (d.address &&& d.netmask) d.netmask 0 o.metric ∨
      e = Eff.delRoute (d.address &&& d.netmask) d.netmask 0 0 := by
  unfold quirkPhase at he
  split at he
  · rcases List.mem_cons.mp he with h | h
    · exact Or.inl h
    · exact Or.inr (by simpa using h)
  · simp at he

/-- The hostname phase emits at most a sethostname effect. -/
theorem hostnamePhase_shape {o : options_t} {d : dhcp_t} {env : ExtEnv} {e : Eff}
    (he : e ∈ hostnamePhase o d env) :
    ∃ h, e = Eff.setHostname h := by
  unfold hostnamePhase at he
  repeat' split at he
  all_goals simp_all

/-- Explicit form of the MTU-phase trace. -/
theorem mtuPhase_fst_eq (o : options_t) (i : interface_t) (d : dhcp_t) (env : ExtEnv) :
    (mtuPhase o i d env).1 =
      if o.domtu = true ∧ (if d.mtu ≠ 0 then d.mtu else i.mtu) ≠ i.previous_mtu then
        [Eff.setMtu (if d.mtu ≠ 0 then d.mtu else i.mtu)]
      else [] := by
  by_cases h1 : o.domtu = true <;> by_cases h2 : d.mtu = 0 <;>
    simp [mtuPhase, h1, h2] <;> split <;> simp_all

/-- Explicit form of the MTU-phase state update. -/
theorem mtuPhase_snd_eq (o : options_t) (i : interface_t) (d : dhcp_t) (env : ExtEnv) :
    (mtuPhase o i d env).2 =
      if o.domtu = true ∧ (if d.mtu ≠ 0 then d.mtu else i.mtu) ≠ i.previous_mtu
          ∧ env.setMtuOk = true then
        { i with previous_mtu := if d.mtu ≠ 0 then d.mtu else i.mtu }
      else i := by
  by_cases h1 : o.domtu = true <;> by_cases h2 : d.mtu = 0 <;>
    by_cases h3 : env.setMtuOk = true <;>
      simp [mtuPhase, h1, h2, h3] <;> split <;> simp_all

/-- The hook tokens of a concatenation. -/
theorem scriptsOf_append (a b : List Eff) :
    scriptsOf (a ++ b) = scriptsOf a ++ scriptsOf b := by
  simp [scriptsOf]

/-- A trace whose effects are all hook-free contributes no tokens. -/
theorem scriptsOf_eq_nil {l : List Eff} (h : ∀ e ∈ l, scriptToken e = none) :
    scriptsOf l = [] := by
  simp only [scriptsOf]
  exact List.filterMap_eq_nil_iff.mpr h

/-- The stale-route phase fires no hook. -/
theorem scriptsOf_removeOldRoutes (o : options_t) (i : interface_t) (d : dhcp_t) :
    scriptsOf (removeOldRoutes o i d) = [] :=
  scriptsOf_eq_nil (fun _ he => by
    obtain ⟨r, _, _, _, rfl⟩ := mem_removeOldRoutes he; rfl)

/-- The MTU phase fires no hook. -/
theorem scriptsOf_mtuPhase (o : options_t) (i : interface_t) (d : dhcp_t) (env : ExtEnv) :
    scriptsOf (mtuPhase o i d env).1 = [] := by
  by_cases h : o.domtu = true ∧ (if d.mtu ≠ 0 then d.mtu else i.mtu) ≠ i.previous_mtu
  · rw [mtuPhase_fst_eq, if_pos h]; rfl
  · rw [mtuPhase_fst_eq, if_neg h]; rfl

/-- The subnet-route quirk fires no hook. -/
theorem scriptsOf_quirkPhase (o : options_t) (i : interface_t) (d : dhcp_t) :
    scriptsOf (quirkPhase o i d) = [] :=
  scriptsOf_eq_nil (fun _ he => by
    rcases quirkPhase_shape he with rfl | rfl <;> rfl)

/-- The route-application loop fires no hook. -/
theorem scriptsOf_addRoutesLoop (o : options_t) (P : List route_t) (env : ExtEnv)
    (rs : List route_t) :
    scriptsOf (addRoutesLoop o P env rs).1 = [] :=
  scriptsOf_eq_nil (fun _ he => by
    obtain ⟨r, _, rfl⟩ := addRoutesLoop_fst_shape he; rfl)

/-- The hostname phase fires no hook. -/
theorem scriptsOf_hostnamePhase (o : options_t) (d : dhcp_t) (env : ExtEnv) :
    scriptsOf (hostnamePhase o d env) = [] :=
  scriptsOf_eq_nil (fun _ he => by
    obtain ⟨h, rfl⟩ := hostnamePhase_shape he; rfl)

/-- The MTU phase leaves previous_address unchanged. -/
theorem mtuPhase_snd_previous_address (o : options_t) (i : interface_t) (d : dhcp_t)
    (env : ExtEnv) : (mtuPhase o i d env).2.previous_address = i.previous_address := by
  rw [mtuPhase_snd_eq]
  split <;> split <;> rfl

/-- The MTU phase leaves previous_netmask unchanged. -/
theorem mtuPhase_snd_previous_netmask (o : options_t) (i : interface_t) (d : dhcp_t)
    (env : ExtEnv) : (mtuPhase o i d env).2.previous_netmask = i.previous_netmask := by
  rw [mtuPhase_snd_eq]
  split <;> split <;> rfl

/-- The MTU phase leaves previous_routes unchanged. -/
theorem mtuPhase_snd_previous_routes (o : options_t) (i : interface_t) (d : dhcp_t)
    (env : ExtEnv) : (mtuPhase o i d env).2.previous_routes = i.previous_routes := by
  rw [mtuPhase_snd_eq]
  split <;> split <;> rfl

/-- Empty traces carry no hook tokens. -/
theorem scriptsOf_nil : scriptsOf [] = [] := rfl

/-- A leading hook effect contributes its token. -/
theorem scriptsOf_cons_script (s : String) (t : List Eff) :
    scriptsOf (Eff.script s :: t) = s :: scriptsOf t := rfl

/-- A leading del_address effect contributes no token. -/
theorem scriptsOf_cons_delAddress (a b : Nat) (t : List Eff) :
    scriptsOf (Eff.delAddress a b :: t) = scriptsOf t := rfl

/-- A leading add_address effect contributes no token. -/
theorem scriptsOf_cons_addAddress (a b c : Nat) (t : List Eff) :
    scriptsOf (Eff.addAddress a b c :: t) = scriptsOf t := rfl

/-- A leading set_mtu effect contributes no token. -/
theorem scriptsOf_cons_setMtu (m : Nat) (t : List Eff) :
    scriptsOf (Eff.setMtu m :: t) = scriptsOf t := rfl

/-- A leading del_route effect contributes no token. -/
theorem scriptsOf_cons_delRoute (a b c m : Nat) (t : List Eff) :
    scriptsOf (Eff.delRoute a b c m :: t) = scriptsOf t := rfl

/-- A leading add_route effect contributes no token. -/
theorem scriptsOf_cons_addRoute (a b c m : Nat) (t : List Eff) :
    scriptsOf (Eff.addRoute a b c m :: t) = scriptsOf t := rfl

/-- A leading sethostname effect contributes no token. -/
theorem scriptsOf_cons_setHostname (h : String) (t : List Eff) :
    scriptsOf (Eff.setHostname h :: t) = scriptsOf t := rfl

/-- The lease-loss path always returns success. -/
theorem configureZero_ret (o : options_t) (i : interface_t) (d : dhcp_t) :
    (configureZero o i d).ret = 0 := by
  unfold configureZero
  by_cases hz : i.previous_address ≠ 0 <;>
    by_cases hm : i.mtu ≠ 0 ∧ i.previous_mtu ≠ i.mtu <;> simp [hz, hm]

/-- The lease-present path fails exactly when the primary add_address
fails hard. -/
theorem configureNonzero_ret (o : options_t) (i : interface_t) (d : dhcp_t) (env : ExtEnv) :
    (configureNonzero o i d env).ret =
      (if env.addAddressResult = AddAddrRes.err then -1 else 0) := by
  unfold configureNonzero
  by_cases herr : env.addAddressResult = AddAddrRes.err
  · simp [herr]
  · simp only [herr, if_neg, if_false]
    split <;> rfl

/-- The lease-present path always performs the primary add_address
call. -/
theorem addAddress_mem_configureNonzero_trace (o : options_t) (i : interface_t)
    (d : dhcp_t) (env : ExtEnv) :
    Eff.addAddress d.address d.netmask d.broadcast ∈ (configureNonzero o i d env).trace := by
  unfold configureNonzero
  by_cases herr : env.addAddressResult = AddAddrRes.err
  · simp [herr]
  · simp only [herr, if_neg, if_false]
    split <;> simp

/-- Case analysis principle for the effects of the lease-loss path. -/
theorem forall_mem_configureZero_trace {o : options_t} {i : interface_t} {d : dhcp_t}
    {p : Eff → Prop}
    (h1 : ∀ e ∈ removeOldRoutes o i d, p e)
    (h2 : p (Eff.setMtu i.mtu))
    (h3 : p (Eff.delAddress i.previous_address i.previous_netmask))
    (h4 : p (Eff.script "down")) :
    ∀ e ∈ (configureZero o i d).trace, p e := by
  intro e he
  by_cases hz : i.previous_address ≠ 0 <;>
    by_cases hm : i.mtu ≠ 0 ∧ i.previous_mtu ≠ i.mtu <;>
    simp [configureZero, hz, hm] at he
  · rcases he with he | rfl | rfl | rfl
    · exact h1 _ he
    · exact h2
    · exact h3
    · exact h4
  · rcases he with he | rfl | rfl
    · exact h1 _ he
    · exact h3
    · exact h4
  · rcases he with he | rfl
    · exact h1 _ he
    · exact h2
  · exact h1 _ he

/-- Case analysis principle for the effects of the lease-present
path. -/
theorem forall_mem_configureNonzero_trace {o : options_t} {i : interface_t} {d : dhcp_t}
    {env : ExtEnv} {p : Eff → Prop}
    (h1 : ∀ e ∈ removeOldRoutes o i d, p e)
    (h2 : ∀ e ∈ (mtuPhase o i d env).1, p e)
    (h3 : p (Eff.addAddress d.address d.netmask d.broadcast))
    (h4 : p (Eff.delAddress i.previous_address i.previous_netmask))
    (h5 : ∀ e ∈ quirkPhase o i d, p e)
    (h6 : ∀ e ∈ (addRoutesLoop o i.previous_routes env d.routes).1, p e)
    (h7 : ∀ e ∈ hostnamePhase o d env, p e)
    (h8 : p (Eff.script "new")) (h9 : p (Eff.script "up")) :
    ∀ e ∈ (configureNonzero o i d env).trace, p e := by
  intro e he
  by_cases herr : env.addAddressResult = AddAddrRes.err
  · simp [configureNonzero, herr] at he
    rcases he with he | he | rfl
    · exact h1 _ he
    · exact h2 _ he
    · exact h3
  · by_cases hch : i.previous_address ≠ d.address ∨ i.previous_netmask ≠ d.netmask <;>
      by_cases hdel : i.previous_address ≠ d.address ∧ i.previous_address ≠ 0 <;>
      simp [configureNonzero, herr, hch, hdel] at he
    · rcases he with he | he | rfl | rfl | he | he | he | rfl
      · exact h1 _ he
      · exact h2 _ he
      · exact h3
      · exact h4
      · exact h5 _ he
      · exact h6 _ he
      · exact h7 _ he
      · first
          | exact h8
          | exact h9
    · rcases he with he | he | rfl | he | he | he | rfl
      · exact h1 _ he
      · exact h2 _ he
      · exact h3
      · exact h5 _ he
      · exact h6 _ he
      · exact h7 _ he
      · first
          | exact h8
          | exact h9
    · rcases he with he | he | rfl | rfl | he | he | he | rfl
      · exact h1 _ he
      · exact h2 _ he
      · exact h3
      · exact h4
      · exact h5 _ he
      · exact h6 _ he
      · exact h7 _ he
      · first
          | exact h8
          | exact h9
    · rcases he with he | he | rfl | he | he | he | rfl
      · exact h1 _ he
      · exact h2 _ he
      · exact h3
      · exact h5 _ he
      · exact h6 _ he
      · exact h7 _ he
      · first
          | exact h8
          | exact h9

/-- A route of the new lease with nonzero address is recognised by
haveNewRoute. -/
theorem haveNewRoute_true {d : dhcp_t} {r : route_t} (h0 : d.address ≠ 0)
    (hN : r ∈ d.routes) : haveNewRoute d r = true := by
  simp only [haveNewRoute, Bool.and_eq_true, List.any_eq_true]
  constructor
  · simpa using h0
  · exact ⟨r, hN, by simp [routeMatch]⟩

/-- The lease-present path keeps the previous_mtu computed by the MTU
phase. -/
theorem configureNonzero_iface_previous_mtu (o : options_t) (i : interface_t)
    (d : dhcp_t) (env : ExtEnv) :
    (configureNonzero o i d env).iface.previous_mtu = (mtuPhase o i d env).2.previous_mtu := by
  by_cases herr : env.addAddressResult = AddAddrRes.err <;>
    by_cases hch : i.previous_address ≠ d.address ∨ i.previous_netmask ≠ d.netmask <;>
    by_cases hroutes : d.routes = [] <;>
    simp [configureNonzero, herr, hch, hroutes]

/-- The MTU-phase trace is contained in the lease-present trace. -/
theorem mtu_mem_configureNonzero {o : options_t} {i : interface_t} {d : dhcp_t}
    {env : ExtEnv} {e : Eff} (he : e ∈ (mtuPhase o i d env).1) :
    e ∈ (configureNonzero o i d env).trace := by
  by_cases herr : env.addAddressResult = AddAddrRes.err <;>
    by_cases hch : i.previous_address ≠ d.address ∨ i.previous_netmask ≠ d.netmask <;>
    by_cases hdel : i.previous_address ≠ d.address ∧ i.previous_address ≠ 0 <;>
    simp [configureNonzero, herr, hch, hdel] <;> tauto

/-- Every hostname-phase effect applies the candidate hostname, under
the management condition, and only when the candidate is non-empty. -/
theorem hostnamePhase_mem {o : options_t} {d : dhcp_t} {env : ExtEnv} {e : Eff}
    (he : e ∈ hostnamePhase o d env) :
    (o.dohostname = true ∨ env.currentHostname = "" ∨ env.currentHostname = "(none)"
      ∨ env.currentHostname = "localhost") ∧
    e = Eff.setHostname (hostnameCandidate o d env) ∧
    hostnameCandidate o d env ≠ "" := by
  by_cases hc : o.dohostname = true ∨ env.currentHostname = ""
      ∨ env.currentHostname = "(none)" ∨ env.currentHostname = "localhost"
  · refine ⟨hc, ?_⟩
    rcases hd : d.hostname with _ | hh
    · rcases hr : env.resolvedName with _ | n <;>
        by_cases hdo : o.dohostname = true <;>
        simp [hostnamePhase, hostnameCandidate, hd, hr, hdo, hc] at he ⊢ <;>
        tauto
    · simp [hostnamePhase, hostnameCandidate, hd, hc] at he ⊢
      tauto
  · simp [hostnamePhase, hc] at he

/-- Reading a quote toggles the quoting state of the shell reader. -/
theorem shRead_quote (rest : List Char) (inq : Bool) :
    shRead (Char.ofNat 39 :: rest) inq = shRead rest (!inq) := by
  rw [shRead.eq_def]
  simp

/-- Outside quotes a backslash escapes the following character. -/
theorem shRead_backslash (c2 : Char) (rest : List Char) :
    shRead (Char.ofNat 92 :: c2 :: rest) false = c2 :: shRead rest false := by
  rw [shRead.eq_def]
  simp

/-- Any other character is read literally. -/
theorem shRead_other (c : Char) (rest : List Char) (inq : Bool)
    (h1 : c ≠ Char.ofNat 39) (h2 : ¬(c = Char.ofNat 92 ∧ inq = false)) :
    shRead (c :: rest) inq = c :: shRead rest inq := by
  rw [shRead.eq_def]
  simp only []
  rw [if_neg h1, if_neg h2]

/-- The escaping of a quote character. -/
theorem cleanChars_quote (rest : List Char) :
    cleanChars (Char.ofNat 39 :: rest) = Char.ofNat 39 :: Char.ofNat 92
      :: Char.ofNat 39 :: Char.ofNat 39 :: cleanChars rest := by
  simp [cleanChars]

/-- The escaping of any other character. -/
theorem cleanChars_other {c : Char} (rest : List Char) (hc : c ≠ Char.ofNat 39) :
    cleanChars (c :: rest) = c :: cleanChars rest := by
  simp [cleanChars, hc]

/-- Reading the escaped characters inside quotes, followed by the
closing quote, recovers the original characters. -/
theorem shRead_cleanChars (l : List Char) :
    shRead (cleanChars l ++ [Char.ofNat 39]) true = l := by
  induction l with
  | nil => rfl
  | cons c rest ih =>
    by_cases hc : c = Char.ofNat 39
    · subst hc
      rw [cleanChars_quote, List.cons_append, shRead_quote, Bool.not_true,
        List.cons_append, List.cons_append, shRead_backslash, List.cons_append,
        shRead_quote, Bool.not_false, ih]
    · rw [cleanChars_other rest hc, List.cons_append,
        shRead_other c _ true hc (by simp), ih]

/-- The info-file pair list splits into the front and the final
CLIENTID and DHCPCHADDR pairs. -/
theorem write_info_decomp (i : interface_t) (d : dhcp_t) (o : options_t) :
    write_info i d o = infoFront i d o ++
      [("CLIENTID", if o.clientid ≠ "" then cleanmetas o.clientid else i.hwaddrStr),
       ("DHCPCHADDR", i.hwaddrStr)] := by
  simp only [write_info, infoFront, List.append_assoc, List.cons_append, List.nil_append]

/-- No pair before the CLIENTID line carries the CLIENTID key. -/
theorem infoFront_no_clientid (i : interface_t) (d : dhcp_t) (o : options_t) :
    (infoFront i d o).all (fun kv => kv.1 != "CLIENTID") = true := by
  unfold infoFront
  simp only [List.all_append, Bool.and_eq_true]
  repeat' apply And.intro
  all_goals first
    | decide
    | (split <;> simp)
    | simp

/-- Claim C1 (amended): a route present by 3-tuple equality in both the
previous route set and the route set of a new lease with nonzero
address is never the subject of a del_route call during configure,
provided its gateway is nonzero (a zero-gateway shared route equal to
the subnet route implied by the lease may still be deleted by the
metric fixup); such a shared route may however be the subject of an
add_route call, whose failure is absorbed. -/
theorem route_non_flap_amended (o : options_t) (i : interface_t) (d : dhcp_t)
    (env : ExtEnv) (r : route_t)
    (hP : r ∈ i.previous_routes) (hN : r ∈ d.routes) (h0 : d.address ≠ 0)
    (hg : r.gateway ≠ 0) :
    ∀ e ∈ (configure o i d env).trace, isDelRouteOf r e = false := by
  have hconf : configure o i d env = configureNonzero o i d env := by
    unfold configure
    rw [if_neg h0]
  rw [hconf]
  apply forall_mem_configureNonzero_trace
  · intro e he
    obtain ⟨r2, hr2, hcond, hhave, rfl⟩ := mem_removeOldRoutes he
    by_cases hb : (r2.destination == r.destination && r2.netmask == r.netmask
        && r2.gateway == r.gateway) = true
    · exfalso
      simp only [Bool.and_eq_true, beq_iff_eq] at hb
      have hrr : r2 = r := by
        cases r2
        cases r
        simp_all
      rw [hrr, haveNewRoute_true h0 hN] at hhave
      cases hhave
    · simpa [isDelRouteOf] using hb
  · intro e he
    rw [mtuPhase_fst_eq] at he
    simp only [List.mem_ite_nil_right, List.mem_singleton] at he
    obtain ⟨h1, rfl⟩ := he
    rfl
  · rfl
  · rfl
  · intro e he
    rcases quirkPhase_shape he with rfl | rfl
    · rfl
    · have hz : (0 == r.gateway) = false := by
        simp [beq_eq_false_iff_ne]
        exact Ne.symm hg
      simp [isDelRouteOf, hz]
  · intro e he
    obtain ⟨r2, _, rfl⟩ := addRoutesLoop_fst_shape he
    rfl
  · intro e he
    obtain ⟨h, rfl⟩ := hostnamePhase_shape he
    rfl
  · rfl
  · rfl

/-- Claim C1, counterexample to the original wording: a route shared
between the previous route set and the new lease is the subject of an
add_route call during configure. -/
theorem route_non_flap_counterexample :
    route567 ∈ ifaceA.previous_routes ∧ route567 ∈ dhcpA.routes ∧
    dhcpA.address ≠ 0 ∧
    Eff.addRoute 5 6 7 0 ∈ (configure opts0 ifaceA dhcpA env0).trace := by decide

/-- Claim C1, witness: the amended non-deletion statement evaluated on
a concrete shared route. -/
theorem route_non_flap_witness :
    (route567 ∈ ifaceA.previous_routes ∧ route567 ∈ dhcpA.routes
      ∧ dhcpA.address ≠ 0 ∧ route567.gateway ≠ 0) ∧
    (∀ e ∈ (configure opts0 ifaceA dhcpA env0).trace,
      isDelRouteOf route567 e = false) :=
  ⟨⟨by decide, by decide, by decide, by decide⟩,
    route_non_flap_amended opts0 ifaceA dhcpA env0 route567 (by decide) (by decide)
      (by decide) (by decide)⟩

/-- Claim C2 (amended): reconciling with a zero lease address when a
previous address exists returns success, clears previous_routes,
previous_address and previous_netmask, restores the native MTU when it
is nonzero and another MTU was applied, fires exactly the down hook,
and performs no add_address or add_route call. -/
theorem lease_loss_cleanup_amended (o : options_t) (i : interface_t) (d : dhcp_t)
    (env : ExtEnv) (h0 : d.address = 0) (h1 : i.previous_address ≠ 0) :
    (configure o i d env).ret = 0 ∧
    (configure o i d env).iface.previous_routes = [] ∧
    (configure o i d env).iface.previous_address = 0 ∧
    (configure o i d env).iface.previous_netmask = 0 ∧
    (i.mtu ≠ 0 ∧ i.previous_mtu ≠ i.mtu →
      Eff.setMtu i.mtu ∈ (configure o i d env).trace ∧
      (configure o i d env).iface.previous_mtu = i.mtu) ∧
    scriptsOf (configure o i d env).trace = ["down"] ∧
    (configure o i d env).trace.all (fun e => !isAddCall e) = true := by
  have hc : configure o i d env = configureZero o i d := by
    unfold configure
    rw [if_pos h0]
  rw [hc]
  by_cases hm : i.mtu ≠ 0 ∧ i.previous_mtu ≠ i.mtu <;>
    simp [configureZero, h1, hm, scriptsOf_append, scriptsOf_removeOldRoutes,
      scriptsOf, scriptToken, List.all_append, isAddCall] <;>
    exact ⟨fun e he => by obtain ⟨r, h2, h3, h4, rfl⟩ := mem_removeOldRoutes he; rfl,
      fun e he => by obtain ⟨r, h2, h3, h4, rfl⟩ := mem_removeOldRoutes he; rfl⟩

/-- Claim C2, counterexample to the original wording: with a zero lease
address but no previously configured address, configure fires no hook
at all and leaves a nonzero previous_netmask in place. -/
theorem lease_loss_cleanup_counterexample :
    dhcp0.address = 0 ∧
    scriptsOf (configure opts0 ifaceB dhcp0 env0).trace = [] ∧
    (configure opts0 ifaceB dhcp0 env0).iface.previous_netmask = 9 := by decide

/-- Claim C2, witness: the amended cleanup statement evaluated on a
state with a previously configured address. -/
theorem lease_loss_cleanup_witness :
    (dhcp0.address = 0 ∧ ifaceC.previous_address ≠ 0) ∧
    scriptsOf (configure opts0 ifaceC dhcp0 env0).trace = ["down"] :=
  ⟨⟨by decide, by decide⟩,
    (lease_loss_cleanup_amended opts0 ifaceC dhcp0 env0 (by decide)
      (by decide)).2.2.2.2.2.1⟩

/-- Claim C3 (amended): after a successful configure with a nonzero
lease address and a non-empty lease route list, previous_routes equals
exactly the lease routes that are not gateway-skipped and were either
added successfully or 3-tuple match a route of the old previous_routes;
with an empty lease route list the old previous_routes are kept
unchanged instead. -/
theorem previous_routes_replacement_amended (o : options_t) (i : interface_t)
    (d : dhcp_t) (env : ExtEnv)
    (h0 : d.address ≠ 0) (hroutes : d.routes ≠ [])
    (hret : (configure o i d env).ret = 0) :
    (configure o i d env).iface.previous_routes =
      d.routes.filter (fun r =>
        !(r.destination == 0 && r.netmask == 0 && !o.dogateway)
        && (env.addRouteOk r || i.previous_routes.any (fun pr => routeMatch pr r))) := by
  have hconf : configure o i d env = configureNonzero o i d env := by
    unfold configure
    rw [if_neg h0]
  rw [hconf] at hret ⊢
  by_cases herr : env.addAddressResult = AddAddrRes.err
  · rw [configureNonzero_ret, if_pos herr] at hret
    cases hret
  · rw [← addRoutesLoop_snd_eq o i.previous_routes env d.routes]
    by_cases hch : i.previous_address ≠ d.address ∨ i.previous_netmask ≠ d.netmask <;>
      simp [configureNonzero, herr, hch, hroutes]

/-- Claim C3, counterexample to the original wording: a successful
configure with a nonzero address and an empty lease route list leaves
the old previous_routes in place instead of replacing them with the
empty set of remembered routes. -/
theorem previous_routes_replacement_counterexample :
    dhcpD.routes = [] ∧
    (configure opts0 ifaceD dhcpD env0).ret = 0 ∧
    (configure opts0 ifaceD dhcpD env0).iface.previous_routes = [route567] := by decide

/-- Claim C3, witness: the amended replacement statement evaluated on a
lease with one route. -/
theorem previous_routes_replacement_witness :
    (dhcpE.address ≠ 0 ∧ dhcpE.routes ≠ []
      ∧ (configure opts0 iface0 dhcpE env0).ret = 0) ∧
    (configure opts0 iface0 dhcpE env0).iface.previous_routes
      = dhcpE.routes.filter (fun r =>
          !(r.destination == 0 && r.netmask == 0 && !opts0.dogateway)
          && (env0.addRouteOk r
              || iface0.previous_routes.any (fun pr => routeMatch pr r))) :=
  ⟨⟨by decide, by decide, by decide⟩,
    previous_routes_replacement_amended opts0 iface0 dhcpE env0 (by decide) (by decide)
      (by decide)⟩

/-- Claim C4, code bug: a time-service file holding the same server
line twice satisfies the counting scan of _make_ntp even though a lease
NTP address has no server line at all, so the rewrite and the restart
are skipped against the stated (and commented) intent. -/
theorem ntp_restart_suppression_code_bug :
    _make_ntp false "eth0" { dhcp0 with ntpservers := [16777217, 2] }
        (some ["server 1.0.0.1", "server 1.0.0.1"]) = NtpResult.skip ∧
    hasServerLineFor ["server 1.0.0.1", "server 1.0.0.1"] 2 = false ∧
    inet_ntoa 2 = "0.0.0.2" := by decide

/-- Claim C5: configure fails exactly when a required argument is null
or the primary add_address call happens and fails with an error other
than EEXIST; every other modelled internal failure is absorbed. -/
theorem failure_propagation_policy (o : Option options_t) (i : Option interface_t)
    (d : Option dhcp_t) (env : ExtEnv) :
    (configureC o i d env).ret = -1 ↔
      (o = none ∨ i = none ∨ d = none ∨
        ((∃ a b c, Eff.addAddress a b c ∈ (configureC o i d env).trace) ∧
          env.addAddressResult = AddAddrRes.err)) := by
  rcases o with _ | o
  · simp [configureC]
  rcases i with _ | i
  · simp [configureC]
  rcases d with _ | d
  · simp [configureC]
  simp only [configureC, Option.some.injEq, reduceCtorEq, false_or]
  by_cases h0 : d.address = 0
  · have hz : configure o i d env = configureZero o i d := by
      unfold configure
      rw [if_pos h0]
    rw [hz, configureZero_ret]
    constructor
    · intro h
      cases h
    · rintro ⟨⟨a, b, c, hmem⟩, herr⟩
      exfalso
      have hall : ∀ e ∈ (configureZero o i d).trace, isAddrAdd e = false :=
        forall_mem_configureZero_trace
          (fun e he => by obtain ⟨r, _, _, _, rfl⟩ := mem_removeOldRoutes he; rfl)
          rfl rfl rfl
      have := hall _ hmem
      simp [isAddrAdd] at this
  · have hz : configure o i d env = configureNonzero o i d env := by
      unfold configure
      rw [if_neg h0]
    rw [hz, configureNonzero_ret]
    by_cases herr : env.addAddressResult = AddAddrRes.err
    · simp only [herr, if_pos, and_true]
      constructor
      · intro _
        exact ⟨d.address, d.netmask, d.broadcast,
          addAddress_mem_configureNonzero_trace o i d env⟩
      · intro _
        trivial
    · simp [herr]

/-- Claim C6 (amended): a successful configure fires at most one hook,
with token down when the lease address is zero and a previous address
existed (and no hook when none existed), token new when the address or
netmask changed, token up when both are unchanged; a failing configure
fires no hook; and the previous address and netmask fields afterwards
hold the lease values on the successful lease-present path, zero after
a cleanup, and their old values otherwise. -/
theorem hook_selection_amended (o : options_t) (i : interface_t) (d : dhcp_t)
    (env : ExtEnv) :
    scriptsOf (configure o i d env).trace =
      (if d.address = 0 then (if i.previous_address ≠ 0 then ["down"] else [])
       else if env.addAddressResult = AddAddrRes.err then []
       else if i.previous_address ≠ d.address ∨ i.previous_netmask ≠ d.netmask then ["new"]
       else ["up"]) ∧
    ((configure o i d env).iface.previous_address,
     (configure o i d env).iface.previous_netmask) =
      (if d.address = 0 then
        (if i.previous_address ≠ 0 then (0, 0)
         else (i.previous_address, i.previous_netmask))
       else if env.addAddressResult = AddAddrRes.err then
        (i.previous_address, i.previous_netmask)
       else (d.address, d.netmask)) := by
  by_cases h0 : d.address = 0
  · by_cases h1 : i.previous_address ≠ 0 <;>
      by_cases hm : i.mtu ≠ 0 ∧ i.previous_mtu ≠ i.mtu <;>
      simp [configure, configureZero, h0, h1, hm, scriptsOf_append,
        scriptsOf_removeOldRoutes, scriptsOf_nil, scriptsOf_cons_script,
        scriptsOf_cons_delAddress, scriptsOf_cons_setMtu]
  · by_cases herr : env.addAddressResult = AddAddrRes.err
    · simp [configure, configureNonzero, h0, herr, scriptsOf_append,
        scriptsOf_removeOldRoutes, scriptsOf_mtuPhase, scriptsOf_cons_addAddress,
        scriptsOf_nil, mtuPhase_snd_previous_address, mtuPhase_snd_previous_netmask]
    · by_cases hch : i.previous_address ≠ d.address ∨ i.previous_netmask ≠ d.netmask <;>
        by_cases hroutes : d.routes = [] <;>
        simp [configure, configureNonzero, h0, herr, hch, hroutes, scriptsOf_append,
          scriptsOf_removeOldRoutes, scriptsOf_mtuPhase, scriptsOf_quirkPhase,
          scriptsOf_addRoutesLoop, scriptsOf_hostnamePhase, scriptsOf_cons_addAddress,
          scriptsOf_cons_script, scriptsOf_cons_delAddress, scriptsOf_nil,
          apply_ite scriptsOf, mtuPhase_snd_previous_address,
          mtuPhase_snd_previous_netmask] <;>
        (try (push_neg at hch; exact hch))

/-- Claim C6, counterexample to the original wording: a configure call
whose primary add_address fails returns an error and fires no hook at
all, so not every call causes exactly one hook invocation. -/
theorem hook_selection_counterexample :
    (configure opts0 iface0 dhcpD envErr).ret = -1 ∧
    scriptsOf (configure opts0 iface0 dhcpD envErr).trace = [] := by decide

/-- Claim C7: escaping a value with cleanmetas, wrapping it in single
quotes and reading it back with a shell-style reader recovers exactly
the original string. -/
theorem info_quoting_roundtrip (s : String) :
    shReadStr (squote ++ cleanmetas s ++ squote) = s := by
  have hd : (squote ++ cleanmetas s ++ squote).data
      = Char.ofNat 39 :: (cleanChars s.data ++ [Char.ofNat 39]) := by
    simp [squote, cleanmetas, String.data_append]
  have h2 : shRead ((squote ++ cleanmetas s ++ squote).data) false = s.data := by
    rw [hd, shRead_quote, Bool.not_false]
    exact shRead_cleanChars s.data
  show String.mk _ = s
  rw [h2]

/-- Claim C8 (amended): on the lease-present path with MTU management
on, the target MTU is the lease MTU when nonzero else the native MTU;
set_mtu is called exactly when the target differs from the previously
applied MTU and only ever with the target value (so a zero MTU is
possible only when both the lease and native MTU are zero); on success
the target is remembered as applied, on failure the old value is
kept. -/
theorem mtu_management_amended (o : options_t) (i : interface_t) (d : dhcp_t)
    (env : ExtEnv) (hdomtu : o.domtu = true) (h0 : d.address ≠ 0) :
    ((if d.mtu ≠ 0 then d.mtu else i.mtu) ≠ i.previous_mtu →
      Eff.setMtu (if d.mtu ≠ 0 then d.mtu else i.mtu) ∈ (configure o i d env).trace) ∧
    (∀ m, Eff.setMtu m ∈ (configure o i d env).trace →
      m = (if d.mtu ≠ 0 then d.mtu else i.mtu)
        ∧ (if d.mtu ≠ 0 then d.mtu else i.mtu) ≠ i.previous_mtu) ∧
    (env.setMtuOk = true →
      (configure o i d env).iface.previous_mtu = (if d.mtu ≠ 0 then d.mtu else i.mtu)) ∧
    (env.setMtuOk = false →
      (configure o i d env).iface.previous_mtu = i.previous_mtu) := by
  have hconf : configure o i d env = configureNonzero o i d env := by
    unfold configure
    rw [if_neg h0]
  rw [hconf]
  refine ⟨?_, ?_, ?_, ?_⟩
  · intro hne
    apply mtu_mem_configureNonzero
    rw [mtuPhase_fst_eq, if_pos ⟨hdomtu, hne⟩]
    simp
  · intro m hm
    have hall : ∀ e ∈ (configureNonzero o i d env).trace,
        ∀ m2, e = Eff.setMtu m2 →
          m2 = (if d.mtu ≠ 0 then d.mtu else i.mtu)
            ∧ (if d.mtu ≠ 0 then d.mtu else i.mtu) ≠ i.previous_mtu := by
      apply forall_mem_configureNonzero_trace
      · intro e he m2 hh
        obtain ⟨r, _, _, _, rfl⟩ := mem_removeOldRoutes he
        exact absurd hh (by simp)
      · intro e he m2 hh
        rw [mtuPhase_fst_eq] at he
        simp only [List.mem_ite_nil_right, List.mem_singleton] at he
        obtain ⟨⟨_, hne⟩, rfl⟩ := he
        injection hh with h2
        exact ⟨h2.symm, hne⟩
      · intro m2 hh
        exact absurd hh (by simp)
      · intro m2 hh
        exact absurd hh (by simp)
      · intro e he m2 hh
        rcases quirkPhase_shape he with rfl | rfl <;> exact absurd hh (by simp)
      · intro e he m2 hh
        obtain ⟨r, _, rfl⟩ := addRoutesLoop_fst_shape he
        exact absurd hh (by simp)
      · intro e he m2 hh
        obtain ⟨h2, rfl⟩ := hostnamePhase_shape he
        exact absurd hh (by simp)
      · intro m2 hh
        exact absurd hh (by simp)
      · intro m2 hh
        exact absurd hh (by simp)
    exact hall _ hm m rfl
  · intro hok
    rw [configureNonzero_iface_previous_mtu, mtuPhase_snd_eq]
    by_cases hcond : o.domtu = true
        ∧ (if d.mtu ≠ 0 then d.mtu else i.mtu) ≠ i.previous_mtu ∧ env.setMtuOk = true
    · rw [if_pos hcond]
    · rw [if_neg hcond]
      by_cases ht : (if d.mtu ≠ 0 then d.mtu else i.mtu) = i.previous_mtu
      · exact ht.symm
      · exact absurd ⟨hdomtu, ht, hok⟩ hcond
  · intro hnok
    rw [configureNonzero_iface_previous_mtu, mtuPhase_snd_eq]
    by_cases hcond : o.domtu = true
        ∧ (if d.mtu ≠ 0 then d.mtu else i.mtu) ≠ i.previous_mtu ∧ env.setMtuOk = true
    · rw [hnok] at hcond
      exact absurd hcond.2.2 (by simp)
    · rw [if_neg hcond]

/-- Claim C8, counterexample to the original wording: with a zero
native MTU and no lease MTU, set_mtu is called with the value zero, and
because the call fails the target is not remembered as applied. -/
theorem mtu_management_counterexample :
    ifaceE.mtu = 0 ∧ dhcpD.mtu = 0 ∧
    Eff.setMtu 0 ∈ (configure optsMtu ifaceE dhcpD envNoMtu).trace ∧
    (configure optsMtu ifaceE dhcpD envNoMtu).iface.previous_mtu = 1500 := by decide

/-- Claim C8, witness: the amended MTU statement evaluated on a lease
carrying MTU 1400. -/
theorem mtu_management_witness :
    (optsMtu.domtu = true ∧ dhcpF.address ≠ 0
      ∧ (if dhcpF.mtu ≠ 0 then dhcpF.mtu else iface0.mtu) ≠ iface0.previous_mtu) ∧
    Eff.setMtu (if dhcpF.mtu ≠ 0 then dhcpF.mtu else iface0.mtu)
      ∈ (configure optsMtu iface0 dhcpF env0).trace :=
  ⟨⟨by decide, by decide, by decide⟩,
    (mtu_management_amended optsMtu iface0 dhcpF env0 (by decide) (by decide)).1
      (by decide)⟩

/-- Claim C9: whenever configure applies a hostname, the management
condition held (hostname management on, or the current name empty, the
sentinel, or the loopback name), the applied value is the candidate
(the explicit lease hostname, else the reverse-DNS name cut before its
first whitespace or control character), and that candidate is
non-empty; in every other situation the hostname is untouched. -/
theorem hostname_determination (o : options_t) (i : interface_t) (d : dhcp_t)
    (env : ExtEnv) (h : String)
    (hmem : Eff.setHostname h ∈ (configure o i d env).trace) :
    (o.dohostname = true ∨ env.currentHostname = "" ∨ env.currentHostname = "(none)"
      ∨ env.currentHostname = "localhost") ∧
    h ≠ "" ∧ h = hostnameCandidate o d env := by
  by_cases h0 : d.address = 0
  · exfalso
    have hz : configure o i d env = configureZero o i d := by
      unfold configure
      rw [if_pos h0]
    rw [hz] at hmem
    have hall : ∀ e ∈ (configureZero o i d).trace, ∀ h2, e ≠ Eff.setHostname h2 :=
      forall_mem_configureZero_trace
        (fun e he => by
          obtain ⟨r, _, _, _, rfl⟩ := mem_removeOldRoutes he
          intro h2 hh
          cases hh)
        (fun h2 hh => by cases hh)
        (fun h2 hh => by cases hh)
        (fun h2 hh => by cases hh)
    exact hall _ hmem h rfl
  · have hz : configure o i d env = configureNonzero o i d env := by
      unfold configure
      rw [if_neg h0]
    rw [hz] at hmem
    have hall : ∀ e ∈ (configureNonzero o i d env).trace,
        ∀ h2, e = Eff.setHostname h2 →
          (o.dohostname = true ∨ env.currentHostname = "" ∨ env.currentHostname = "(none)"
            ∨ env.currentHostname = "localhost") ∧
          h2 ≠ "" ∧ h2 = hostnameCandidate o d env := by
      apply forall_mem_configureNonzero_trace
      · intro e he h2 hh
        obtain ⟨r, _, _, _, rfl⟩ := mem_removeOldRoutes he
        cases hh
      · intro e he h2 hh
        rw [mtuPhase_fst_eq] at he
        simp only [List.mem_ite_nil_right, List.mem_singleton] at he
        obtain ⟨_, rfl⟩ := he
        cases hh
      · intro h2 hh
        cases hh
      · intro h2 hh
        cases hh
      · intro e he h2 hh
        rcases quirkPhase_shape he with rfl | rfl <;> cases hh
      · intro e he h2 hh
        obtain ⟨r, _, rfl⟩ := addRoutesLoop_fst_shape he
        cases hh
      · intro e he h2 hh
        obtain ⟨hc, rfl, hne⟩ := hostnamePhase_mem he
        injection hh with h3
        exact ⟨hc, h3 ▸ hne, h3.symm⟩
      · intro h2 hh
        cases hh
      · intro h2 hh
        cases hh
    exact hall _ hmem h rfl

/-- Claim C9, witness: the hostname statement evaluated on a lease with
no hostname and a reverse-DNS result containing a space. -/
theorem hostname_determination_witness :
    (Eff.setHostname "foo" ∈ (configure optsHost iface0 dhcpD envHost).trace) ∧
    ((optsHost.dohostname = true ∨ envHost.currentHostname = ""
        ∨ envHost.currentHostname = "(none)" ∨ envHost.currentHostname = "localhost") ∧
      "foo" ≠ "" ∧ "foo" = hostnameCandidate optsHost dhcpD envHost) :=
  ⟨by decide, hostname_determination optsHost iface0 dhcpD envHost "foo" (by decide)⟩

/-- Claim C10: write_info emits the CLIENTID pair exactly once, as the
next-to-last line, valued with the escaped client identifier when the
option is non-empty and with the hardware-address string otherwise, in
which case it equals the DHCPCHADDR value written on the following
line. -/
theorem write_info_clientid_line (i : interface_t) (d : dhcp_t) (o : options_t) :
    ∃ front, write_info i d o = front ++
        [("CLIENTID", if o.clientid ≠ "" then cleanmetas o.clientid else i.hwaddrStr),
         ("DHCPCHADDR", i.hwaddrStr)] ∧
      front.all (fun kv => kv.1 != "CLIENTID") = true :=
  ⟨infoFront i d o, write_info_decomp i d o, infoFront_no_clientid i d o⟩
